import Mathlib

/-!
Verification development for the particle-system force engine in
`HuylerMichael_ProjA/lib/VBOBox.js` (the `Force` class and its `apply` /
`draw` operations).

The JavaScript numeric semantics are modelled over the real numbers `ℝ`
(floating-point rounding is out of scope).  The shared state buffer is a
flat map from slot index to a real number.  Division by zero follows
Lean's junk-value convention `x / 0 = 0`; every theorem below is either
independent of that convention or explicitly avoids the degenerate input.
-/

/-- The shared state buffer: a flat array of per-particle scalar fields,
modelled as a total map from slot index to value. -/
def State := ℕ → ℝ

/-- Modelled from the spec: the per-particle field layout (`STATE_SIZE` and
the `STATE` offset constants are defined in a repository file outside
`src/`; the spec fixes `STATE_SIZE = 10` and lists the fields position,
velocity, accumulated force and mass, in that order). -/
def STATE_SIZE : ℕ := 10

namespace STATE

def P_X : ℕ := 0
def P_Y : ℕ := 1
def P_Z : ℕ := 2
def V_X : ℕ := 3
def V_Y : ℕ := 4
def V_Z : ℕ := 5
def F_X : ℕ := 6
def F_Y : ℕ := 7
def F_Z : ℕ := 8
def MASS : ℕ := 9

end STATE

/-- Overwrite one slot of the state buffer. -/
def upd (s : State) (n : ℕ) (v : ℝ) : State := fun m => if m = n then v else s m

/-- `s[n] += v`, the in-place accumulation used by every force kernel. -/
def addAt (s : State) (n : ℕ) (v : ℝ) : State := upd s n (s n + v)

/-- A 3-component vector, mirroring `glMatrix.vec3`. -/
structure Vec3 where
  x : ℝ
  y : ℝ
  z : ℝ

def Vec3.zero : Vec3 := ⟨0, 0, 0⟩

def Vec3.add (a b : Vec3) : Vec3 := ⟨a.x + b.x, a.y + b.y, a.z + b.z⟩

def Vec3.sub (a b : Vec3) : Vec3 := ⟨a.x - b.x, a.y - b.y, a.z - b.z⟩

def Vec3.scale (a : Vec3) (c : ℝ) : Vec3 := ⟨a.x * c, a.y * c, a.z * c⟩

/-- `glMatrix.vec3.scaleAndAdd(out, a, b, c) = a + b * c`. -/
def Vec3.scaleAndAdd (a b : Vec3) (c : ℝ) : Vec3 :=
  ⟨a.x + b.x * c, a.y + b.y * c, a.z + b.z * c⟩

def Vec3.dot (a b : Vec3) : ℝ := a.x * b.x + a.y * b.y + a.z * b.z

noncomputable def Vec3.len (a : Vec3) : ℝ := Real.sqrt (a.x ^ 2 + a.y ^ 2 + a.z ^ 2)

/-- `glMatrix.vec3.angle`: arccos of the clamped normalized dot product
(the library returns `acos 0` when either vector has length zero, matching
Lean's `x / 0 = 0` convention). -/
noncomputable def Vec3.angle (a b : Vec3) : ℝ :=
  Real.arccos (min 1 (max (-1) (Vec3.dot a b / (Vec3.len a * Vec3.len b))))

/-- `glMatrix.vec3.rotateZ(out, a, b, rad)`: rotate `a` about the z-axis
line through `b` by `rad` radians. -/
noncomputable def Vec3.rotateZ (a b : Vec3) (rad : ℝ) : Vec3 :=
  ⟨(a.x - b.x) * Real.cos rad - (a.y - b.y) * Real.sin rad + b.x,
   (a.x - b.x) * Real.sin rad + (a.y - b.y) * Real.cos rad + b.y,
   (a.z - b.z) + b.z⟩

/-- Component access used to state slot-wise theorems (`0 ↦ x`, `1 ↦ y`, else `z`). -/
def Vec3.nth (v : Vec3) (k : ℕ) : ℝ := if k = 0 then v.x else if k = 1 then v.y else v.z

/-- Position of particle `q` as a vector. -/
def posOf (s : State) (q : ℕ) : Vec3 :=
  ⟨s (q * STATE_SIZE + STATE.P_X), s (q * STATE_SIZE + STATE.P_Y), s (q * STATE_SIZE + STATE.P_Z)⟩

/-- Velocity of particle `q` as a vector. -/
def velOf (s : State) (q : ℕ) : Vec3 :=
  ⟨s (q * STATE_SIZE + STATE.V_X), s (q * STATE_SIZE + STATE.V_Y), s (q * STATE_SIZE + STATE.V_Z)⟩

/-! The `FORCE_TYPE` enum of the source, with its numeric values. -/

namespace FORCE_TYPE

def FORCE_SIMP_GRAVITY : ℕ := 0
def FORCE_DRAG : ℕ := 1
def FORCE_WIND : ℕ := 2
def FORCE_SPRING : ℕ := 3
def FORCE_FLOCK : ℕ := 4
def FORCE_PLANETARY_GRAVITY : ℕ := 5
def FORCE_LINE_ATTRACTOR : ℕ := 6
def FORCE_VORTEX : ℕ := 7
def FORCE_UNIFORM_POINT_ATTRACTOR : ℕ := 8
def FORCE_POINT_ATTRACTOR : ℕ := 9

end FORCE_TYPE

/-- The `Force` class: one record carrying the fields of every variant
(the source sets only the fields its variant needs; unset fields default
to zero here and are never read by the corresponding kernel). -/
structure Force where
  type : ℕ
  p : List ℕ
  enabled : Bool := true
  magnitude : ℝ := 0
  x : ℝ := 0
  y : ℝ := 0
  z : ℝ := 0
  k : ℝ := 0
  lr : ℝ := 0
  d : ℝ := 0
  r1 : ℝ := 0
  r2 : ℝ := 0
  t1 : ℝ := 0
  t2 : ℝ := 0
  ka : ℝ := 0
  kv : ℝ := 0
  kc : ℝ := 0
  koa : ℝ := 0
  kgs : ℝ := 0
  x_a : Vec3 := Vec3.zero
  a : Vec3 := Vec3.zero
  pow : ℝ := 0
  L : ℝ := 0
  r : ℝ := 0

/-- Modelled from the spec: the globals the flock and wind kernels read that
live outside `src/` — the fixed flock-size constant `BOID_PARTICLE_COUNT`
(whose last particle is the "predator"), the goal position
`boid.force_set[3]`, and the stream of `Math.random()` draws. -/
structure Env where
  boidCount : ℕ
  goal : Vec3
  rand : ℕ → ℝ

/-- `FORCE_SIMP_GRAVITY` kernel: `s[F_Z] += s[MASS] * magnitude` per target. -/
noncomputable def applyGravity (f : Force) (s : State) : State :=
  (List.range f.p.length).foldl (fun t i =>
    let q := f.p.getD i 0
    addAt t (q * STATE_SIZE + STATE.F_Z) (t (q * STATE_SIZE + STATE.MASS) * f.magnitude)) s

/-- `FORCE_DRAG` kernel: `s[F_axis] -= s[V_axis] * (dir_axis * magnitude)`. -/
noncomputable def applyDrag (f : Force) (s : State) : State :=
  (List.range f.p.length).foldl (fun t i =>
    let q := f.p.getD i 0
    let t1 := addAt t (q * STATE_SIZE + STATE.F_X)
      (-(t (q * STATE_SIZE + STATE.V_X) * (f.x * f.magnitude)))
    let t2 := addAt t1 (q * STATE_SIZE + STATE.F_Y)
      (-(t1 (q * STATE_SIZE + STATE.V_Y) * (f.y * f.magnitude)))
    addAt t2 (q * STATE_SIZE + STATE.F_Z)
      (-(t2 (q * STATE_SIZE + STATE.V_Z) * (f.z * f.magnitude)))) s

/-- `FORCE_WIND` kernel: each axis gets `dir_axis * magnitude * (random()*2-1)`;
the `i`-th loop iteration consumes draws `3i`, `3i+1`, `3i+2` of the stream. -/
noncomputable def applyWind (f : Force) (env : Env) (s : State) : State :=
  (List.range f.p.length).foldl (fun t i =>
    let q := f.p.getD i 0
    let t1 := addAt t (q * STATE_SIZE + STATE.F_X)
      (f.x * f.magnitude * (env.rand (3 * i) * 2 - 1))
    let t2 := addAt t1 (q * STATE_SIZE + STATE.F_Y)
      (f.y * f.magnitude * (env.rand (3 * i + 1) * 2 - 1))
    addAt t2 (q * STATE_SIZE + STATE.F_Z)
      (f.z * f.magnitude * (env.rand (3 * i + 2) * 2 - 1))) s

/-- Add a 3-vector into three consecutive slots of particle `q`, starting at
field offset `b` (the shape of every vector-valued accumulation). -/
def addVec (s : State) (q b : ℕ) (v : Vec3) : State :=
  addAt (addAt (addAt s (q * STATE_SIZE + b) v.x) (q * STATE_SIZE + b + 1) v.y)
    (q * STATE_SIZE + b + 2) v.z

/-- `FORCE_SPRING` kernel, verbatim from the source: displacement between the
two target particles, Hooke force clamped per axis by `min(·, 12)`, applied
positively to particle `p[0]` and negatively to `p[1]` (the damping term is
commented out in the source). -/
noncomputable def applySpring (f : Force) (s : State) : State :=
  let i0 := f.p.getD 0 0
  let i1 := f.p.getD 1 0
  let Lx := s (i1 * STATE_SIZE + STATE.P_X) - s (i0 * STATE_SIZE + STATE.P_X)
  let Ly := s (i1 * STATE_SIZE + STATE.P_Y) - s (i0 * STATE_SIZE + STATE.P_Y)
  let Lz := s (i1 * STATE_SIZE + STATE.P_Z) - s (i0 * STATE_SIZE + STATE.P_Z)
  let distance := Real.sqrt (Lx ^ 2 + Ly ^ 2 + Lz ^ 2)
  let L := distance - f.lr
  let Fx := min (f.k * L * Lx / distance) 12
  let Fy := min (f.k * L * Ly / distance) 12
  let Fz := min (f.k * L * Lz / distance) 12
  addVec (addVec s i0 STATE.F_X ⟨Fx, Fy, Fz⟩) i1 STATE.F_X ⟨-Fx, -Fy, -Fz⟩

/-- The generic per-target accumulation loop shared by the flock, attractor
and vortex kernels: for each position `i` of the target list, add the
3-vector `g t i` (computed from the current buffer `t`) into the three
consecutive slots of particle `p[i]` starting at field offset `b`. -/
noncomputable def applyKernel (ps : List ℕ) (b : ℕ) (g : State → ℕ → Vec3) (s : State) : State :=
  (List.range ps.length).foldl (fun t i => addVec t (ps.getD i 0) b (g t i)) s

/-- The skip condition of the flock kernel's inner loop: `j` is the current
boid itself, coincident, out of visual range, or in a blind spot. -/
noncomputable def flockSkipped (f : Force) (s : State) (i j : ℕ) : Prop :=
  let x_i := posOf s (f.p.getD i 0)
  let x_j := posOf s (f.p.getD j 0)
  let x_ij := Vec3.sub x_j x_i
  let d_ij := Vec3.len x_ij
  let t_ij := Vec3.angle x_ij (velOf s (f.p.getD j 0))
  i = j ∨ d_ij = 0 ∨ d_ij > f.r2 ∨ t_ij > f.t2 * 0.5

noncomputable instance (f : Force) (s : State) (i j : ℕ) :
    Decidable (flockSkipped f s i j) := by
  unfold flockSkipped
  exact inferInstanceAs (Decidable (_ ∨ _ ∨ _ ∨ _))

/-- The per-boid acceleration of the `FORCE_FLOCK` kernel: the inner loop over
every other target boid `j`, accumulating collision avoidance, velocity
matching, centering, obstacle avoidance (repulsion from the fixed predator
position `x_p`) and goal seeking (attraction toward `x_g`).  Note the source
computes `x_hat` by *scaling `x_ij` by `d_ij`* (`glMatrix.vec3.scale`), which
is kept verbatim here. -/
noncomputable def flockContribStep (f : Force) (x_p x_g : Vec3) (s : State) (i : ℕ)
    (a_i : Vec3) (j : ℕ) : Vec3 :=
  let q_i := f.p.getD i 0
  let q_j := f.p.getD j 0
  let x_i := posOf s q_i
  let x_j := posOf s q_j
  let x_ij := Vec3.sub x_j x_i
  let d_ij := Vec3.len x_ij
  let t_ij := Vec3.angle x_ij (velOf s q_j)
  let x_hat := Vec3.scale x_ij d_ij
  if flockSkipped f s i j then a_i
  else
    let k_d := if d_ij < f.r1 then (1 : ℝ) else (f.r2 - d_ij) / (f.r2 - f.r1)
    let k_t := if t_ij < f.t1 * 0.5 then (1 : ℝ)
               else (f.t2 * 0.5 - t_ij) / (f.t2 * 0.5 - f.t1 * 0.5)
    let aAvoid := Vec3.scale x_hat (k_t * k_d * (-1 * f.ka / d_ij))
    let aVel := Vec3.scale (Vec3.sub (velOf s q_j) (velOf s q_i)) (k_t * k_d * f.kv)
    let aCen := Vec3.scale x_ij (k_t * k_d * f.kc)
    let x_ip := Vec3.sub x_p x_i
    let d_ip := Vec3.len x_ip
    let aObs := Vec3.scale x_ip (-1 * f.koa / d_ip / d_ip)
    let x_ig := Vec3.sub x_g x_i
    let d_ig := Vec3.len x_ig
    let aGoal := Vec3.scale x_ig (f.kgs / d_ig)
    ((((a_i.add aAvoid).add aVel).add aCen).add aObs).add aGoal

noncomputable def flockA (f : Force) (x_p x_g : Vec3) (s : State) (i : ℕ) : Vec3 :=
  (List.range f.p.length).foldl (flockContribStep f x_p x_g s i) Vec3.zero

/-- `FORCE_FLOCK` kernel: the predator position is read once, from the last
particle of the fixed flock-size constant; each boid's accumulated
acceleration is added into its force slots. -/
noncomputable def applyFlock (f : Force) (env : Env) (s : State) : State :=
  let x_p := posOf s (env.boidCount - 1)
  let x_g := env.goal
  applyKernel f.p STATE.F_X (flockA f x_p x_g) s

/-- The `FORCE_LINE_ATTRACTOR` per-particle contribution: axial/radial
decomposition of the offset from the anchor; inside the influence segment
`[0.01, L)` the *radial vector itself* is scaled by `-9.8 * r^(pow+1)`. -/
noncomputable def lineA (f : Force) (s : State) (i : ℕ) : Vec3 :=
  let x_i := posOf s (f.p.getD i 0)
  let x_ai := Vec3.sub x_i f.x_a
  let l_ai := Vec3.dot x_ai f.a
  if 0.01 ≤ l_ai ∧ l_ai < f.L then
    let r_ai := Vec3.scaleAndAdd x_ai f.a (-l_ai)
    let r := Vec3.len r_ai
    Vec3.scale r_ai (-9.8 * Real.rpow r (f.pow + 1))
  else Vec3.zero

/-- `FORCE_LINE_ATTRACTOR` kernel. -/
noncomputable def applyLineAttractor (f : Force) (s : State) : State :=
  applyKernel f.p STATE.F_X (lineA f) s

/-- Rotational frequency at the edge of the vortex (source constant `f_R = 2`). -/
def f_R : ℝ := 2

/-- Maximum rotational frequency, `Math.pow(10, f_R + 1)`. -/
noncomputable def f_max : ℝ := Real.rpow 10 (f_R + 1)

/-- The `FORCE_VORTEX` per-particle velocity contribution: inside the axial
segment `[0.01, L)` and radial radius `r < _r`, the velocity is changed by
rotating the position about the z-line through the vortex anchor by
`ω = 2π · min(f_max, (_r/r)^pow · f_R)` and subtracting the position. -/
noncomputable def vortexV (f : Force) (s : State) (i : ℕ) : Vec3 :=
  let x_i := posOf s (f.p.getD i 0)
  let x_vi := Vec3.sub x_i f.x_a
  let l_vi := Vec3.dot f.a x_vi
  if 0.01 ≤ l_vi ∧ l_vi < f.L then
    let r_i := Vec3.scaleAndAdd x_vi f.a (-l_vi)
    let r := Vec3.len r_i
    if r < f.r then
      let f_i := min f_max (Real.rpow (f.r / r) f.pow * f_R)
      let ω := 2 * Real.pi * f_i
      let v_vi := Vec3.rotateZ x_i f.x_a ω
      Vec3.sub v_vi x_i
    else Vec3.zero
  else Vec3.zero

/-- `FORCE_VORTEX` kernel: the only kernel writing velocity slots. -/
noncomputable def applyVortex (f : Force) (s : State) : State :=
  applyKernel f.p STATE.V_X (vortexV f) s

/-- The `FORCE_UNIFORM_POINT_ATTRACTOR` per-particle contribution:
`anchor - position`, unscaled and unconditional. -/
noncomputable def upaD (f : Force) (s : State) (i : ℕ) : Vec3 :=
  Vec3.sub f.x_a (posOf s (f.p.getD i 0))

/-- `FORCE_UNIFORM_POINT_ATTRACTOR` kernel. -/
noncomputable def applyUniformPointAttractor (f : Force) (s : State) : State :=
  applyKernel f.p STATE.F_X (upaD f) s

/-- The `FORCE_POINT_ATTRACTOR` per-particle contribution: skip beyond the
influence length `L`, otherwise scale `anchor - position` by
`r / len^(pow+1)`. -/
noncomputable def paD (f : Force) (s : State) (i : ℕ) : Vec3 :=
  let dir := Vec3.sub f.x_a (posOf s (f.p.getD i 0))
  let len := Vec3.len dir
  if len > f.L then Vec3.zero
  else Vec3.scale dir (f.r / Real.rpow len (f.pow + 1))

/-- `FORCE_POINT_ATTRACTOR` kernel. -/
noncomputable def applyPointAttractor (f : Force) (s : State) : State :=
  applyKernel f.p STATE.F_X (paD f) s

/-- `Force.apply(s)`: no-op when disabled, otherwise the switch over the
type tag; a tag with no case (such as `FORCE_PLANETARY_GRAVITY`) falls to
the default branch, a logged no-op. -/
noncomputable def Force.apply (f : Force) (env : Env) (s : State) : State :=
  if f.enabled = false then s
  else if f.type = FORCE_TYPE.FORCE_SIMP_GRAVITY then applyGravity f s
  else if f.type = FORCE_TYPE.FORCE_DRAG then applyDrag f s
  else if f.type = FORCE_TYPE.FORCE_WIND then applyWind f env s
  else if f.type = FORCE_TYPE.FORCE_SPRING then applySpring f s
  else if f.type = FORCE_TYPE.FORCE_FLOCK then applyFlock f env s
  else if f.type = FORCE_TYPE.FORCE_LINE_ATTRACTOR then applyLineAttractor f s
  else if f.type = FORCE_TYPE.FORCE_VORTEX then applyVortex f s
  else if f.type = FORCE_TYPE.FORCE_UNIFORM_POINT_ATTRACTOR then applyUniformPointAttractor f s
  else if f.type = FORCE_TYPE.FORCE_POINT_ATTRACTOR then applyPointAttractor f s
  else s

/-- The current length of the drawn segment,
`Math.sqrt(Math.pow(p1[0]-p0[0],2) + ...)`. -/
noncomputable def drawLen (p0 p1 : Vec3) : ℝ :=
  Real.sqrt ((p1.x - p0.x) ^ 2 + (p1.y - p0.y) ^ 2 + (p1.z - p0.z) ^ 2)

/-- `Force.draw(vbo, index, enabled, p0, p1)`, with the renderer's
`reload(data, offset)` call modelled as the returned pair (pushed floats,
element offset).  `r0, g0, b0` are the initial `Math.random()` colour draws,
which the Spring case fully overwrites; every non-Spring variant pushes
nothing. -/
noncomputable def Force.draw (f : Force) (r0 g0 b0 : ℝ) (index : ℕ) (enabled : Bool)
    (p0 p1 : Vec3) : Option (List ℝ × ℕ) :=
  let e : Bool := enabled && f.enabled
  let eF : ℝ := if e then 1 else 0
  if f.type = FORCE_TYPE.FORCE_SPRING then
    let len := drawLen p0 p1
    let rgb : ℝ × ℝ × ℝ :=
      if |len - f.lr| < 0.01 then (1, 1, 1)
      else
        let delta := 1 - |len - f.lr| / f.lr
        if delta ≤ 0.33 then (1, delta, delta) else (delta, delta, 1)
    some ([p0.x, p0.y, p0.z, rgb.1, rgb.2.1, rgb.2.2, eF,
           p1.x, p1.y, p1.z, rgb.1, rgb.2.1, rgb.2.2, eF], index * 7 * 2)
  else none

/-! Frame lemmas for the generic accumulation loop `applyKernel`. -/

/-- Slot `n` lies outside the three-slot band at field offset `b`. -/
def OffBand (b n : ℕ) : Prop :=
  n % STATE_SIZE ≠ b ∧ n % STATE_SIZE ≠ b + 1 ∧ n % STATE_SIZE ≠ b + 2

lemma upd_apply_eq (s : State) (n : ℕ) (v : ℝ) : upd s n v n = v := by
  simp [upd]

lemma upd_apply_ne (s : State) (n : ℕ) (v : ℝ) (m : ℕ) (h : m ≠ n) : upd s n v m = s m := by
  simp [upd, h]

lemma addVec_off (t : State) (q b : ℕ) (v : Vec3) (n : ℕ) (hb : b + 2 < STATE_SIZE)
    (h : OffBand b n) : addVec t q b v n = t n := by
  obtain ⟨h0, h1, h2⟩ := h
  simp only [STATE_SIZE] at hb h0 h1 h2
  simp only [addVec, addAt]
  rw [upd_apply_ne _ _ _ _ (by simp only [STATE_SIZE]; omega),
    upd_apply_ne _ _ _ _ (by simp only [STATE_SIZE]; omega),
    upd_apply_ne _ _ _ _ (by simp only [STATE_SIZE]; omega)]

lemma addVec_nth0 (t : State) (q b : ℕ) (v : Vec3) :
    addVec t q b v (q * STATE_SIZE + b) = t (q * STATE_SIZE + b) + v.x := by
  simp only [addVec, addAt]
  rw [upd_apply_ne _ _ _ _ (by omega), upd_apply_ne _ _ _ _ (by omega), upd_apply_eq]

lemma addVec_nth1 (t : State) (q b : ℕ) (v : Vec3) :
    addVec t q b v (q * STATE_SIZE + b + 1) = t (q * STATE_SIZE + b + 1) + v.y := by
  simp only [addVec, addAt]
  rw [upd_apply_ne _ _ _ _ (by omega), upd_apply_eq,
    upd_apply_ne _ _ _ _ (by omega)]

lemma addVec_nth2 (t : State) (q b : ℕ) (v : Vec3) :
    addVec t q b v (q * STATE_SIZE + b + 2) = t (q * STATE_SIZE + b + 2) + v.z := by
  simp only [addVec, addAt]
  rw [upd_apply_eq, upd_apply_ne _ _ _ _ (by omega), upd_apply_ne _ _ _ _ (by omega)]

lemma addVec_nth (t : State) (q b k : ℕ) (v : Vec3) (hk : k ≤ 2) :
    addVec t q b v (q * STATE_SIZE + b + k) = t (q * STATE_SIZE + b + k) + v.nth k := by
  interval_cases k
  · simpa [Vec3.nth] using addVec_nth0 t q b v
  · simpa [Vec3.nth] using addVec_nth1 t q b v
  · simpa [Vec3.nth] using addVec_nth2 t q b v

lemma addVec_otherq (t : State) (q' q b k : ℕ) (v : Vec3) (hb : b + 2 < STATE_SIZE)
    (hk : k ≤ 2) (hq : q' ≠ q) :
    addVec t q' b v (q * STATE_SIZE + b + k) = t (q * STATE_SIZE + b + k) := by
  simp only [STATE_SIZE] at hb ⊢
  simp only [addVec, addAt]
  rw [upd_apply_ne _ _ _ _ (by simp only [STATE_SIZE]; omega),
    upd_apply_ne _ _ _ _ (by simp only [STATE_SIZE]; omega),
    upd_apply_ne _ _ _ _ (by simp only [STATE_SIZE]; omega)]

/-- The general fold of `applyKernel` over an arbitrary index list. -/
noncomputable def kfold (ps : List ℕ) (b : ℕ) (g : State → ℕ → Vec3) (l : List ℕ)
    (s : State) : State :=
  l.foldl (fun t i => addVec t (ps.getD i 0) b (g t i)) s

lemma applyKernel_eq_kfold (ps : List ℕ) (b : ℕ) (g : State → ℕ → Vec3) (s : State) :
    applyKernel ps b g s = kfold ps b g (List.range ps.length) s := rfl

lemma kfold_spec (ps : List ℕ) (b : ℕ) (g : State → ℕ → Vec3) (s : State)
    (hb : b + 2 < STATE_SIZE)
    (hg : ∀ t i, (∀ n, OffBand b n → t n = s n) → g t i = g s i) :
    ∀ l t, (∀ n, OffBand b n → t n = s n) →
      (∀ n, OffBand b n → kfold ps b g l t n = t n) ∧
      (∀ q k, k ≤ 2 →
        kfold ps b g l t (q * STATE_SIZE + b + k) =
          t (q * STATE_SIZE + b + k) +
            ((l.filter (fun i => ps.getD i 0 = q)).map (fun i => (g s i).nth k)).sum) := by
  intro l
  induction l with
  | nil =>
    intro t ht
    refine ⟨fun n _ => rfl, fun q k hk => ?_⟩
    simp [kfold]
  | cons hd tl ih =>
    intro t ht
    have hghd : g t hd = g s hd := hg t hd ht
    have step : kfold ps b g (hd :: tl) t =
        kfold ps b g tl (addVec t (ps.getD hd 0) b (g s hd)) := by
      simp only [kfold, List.foldl_cons, hghd]
    have ht' : ∀ n, OffBand b n → addVec t (ps.getD hd 0) b (g s hd) n = s n := by
      intro n hn
      rw [addVec_off _ _ _ _ _ hb hn]
      exact ht n hn
    obtain ⟨ihA, ihB⟩ := ih (addVec t (ps.getD hd 0) b (g s hd)) ht'
    constructor
    · intro n hn
      rw [step, ihA n hn, addVec_off _ _ _ _ _ hb hn]
    · intro q k hk
      rw [step, ihB q k hk]
      by_cases hq : ps.getD hd 0 = q
      · rw [hq, addVec_nth _ _ _ _ _ hk]
        simp only [List.filter_cons, hq]
        simp
        ring
      · rw [addVec_otherq _ _ _ _ _ _ hb hk hq]
        simp only [List.filter_cons, hq]
        simp

lemma applyKernel_off (ps : List ℕ) (b : ℕ) (g : State → ℕ → Vec3) (s : State)
    (hb : b + 2 < STATE_SIZE)
    (hg : ∀ t i, (∀ n, OffBand b n → t n = s n) → g t i = g s i)
    (n : ℕ) (hn : OffBand b n) : applyKernel ps b g s n = s n := by
  rw [applyKernel_eq_kfold]
  exact ((kfold_spec ps b g s hb hg (List.range ps.length) s (fun _ _ => rfl)).1) n hn

lemma applyKernel_val (ps : List ℕ) (b : ℕ) (g : State → ℕ → Vec3) (s : State)
    (hb : b + 2 < STATE_SIZE)
    (hg : ∀ t i, (∀ n, OffBand b n → t n = s n) → g t i = g s i)
    (q k : ℕ) (hk : k ≤ 2) :
    applyKernel ps b g s (q * STATE_SIZE + b + k) =
      s (q * STATE_SIZE + b + k) +
        (((List.range ps.length).filter (fun i => ps.getD i 0 = q)).map
          (fun i => (g s i).nth k)).sum := by
  rw [applyKernel_eq_kfold]
  exact ((kfold_spec ps b g s hb hg (List.range ps.length) s (fun _ _ => rfl)).2) q k hk

lemma sum_const_on (l : List ℕ) (F : ℕ → ℝ) (c : ℝ) (h : ∀ i ∈ l, F i = c) :
    (l.map F).sum = l.length * c := by
  induction l with
  | nil => simp
  | cons hd tl ih =>
    simp only [List.map_cons, List.sum_cons, List.length_cons,
      h hd (List.mem_cons_self hd tl), ih (fun i hi => h i (List.mem_cons_of_mem hd hi))]
    push_cast
    ring

lemma length_filter_range_getD (ps : List ℕ) (q : ℕ) :
    ((List.range ps.length).filter (fun i => ps.getD i 0 = q)).length = ps.count q := by
  induction ps with
  | nil => simp
  | cons hd tl ih =>
    rw [List.length_cons, List.range_succ_eq_map, List.filter_cons]
    rw [List.filter_map]
    have hcomp : ((fun i => decide (List.getD (hd :: tl) i 0 = q)) ∘ (fun n => n + 1)) =
        (fun i => decide (List.getD tl i 0 = q)) := by
      funext i
      simp [List.getD_cons_succ]
    rw [hcomp]
    by_cases hq : hd = q
    · simp [hq, List.count_cons]
      simpa using ih
    · simp [hq, List.count_cons]
      simpa using ih

/-- The delta at particle `q`'s band slots is (number of occurrences of `q`
in the target list) times the per-occurrence contribution, whenever every
occurrence contributes the same vector `w`. -/
lemma applyKernel_count (ps : List ℕ) (b : ℕ) (g : State → ℕ → Vec3) (s : State)
    (hb : b + 2 < STATE_SIZE)
    (hg : ∀ t i, (∀ n, OffBand b n → t n = s n) → g t i = g s i)
    (q k : ℕ) (hk : k ≤ 2) (w : Vec3)
    (hw : ∀ i, i < ps.length → ps.getD i 0 = q → g s i = w) :
    applyKernel ps b g s (q * STATE_SIZE + b + k) =
      s (q * STATE_SIZE + b + k) + (ps.count q : ℝ) * w.nth k := by
  rw [applyKernel_val ps b g s hb hg q k hk]
  rw [sum_const_on _ _ (w.nth k) ?_]
  · rw [length_filter_range_getD]
  · intro i hi
    have hmem := List.mem_filter.mp hi
    have hlt : i < ps.length := List.mem_range.mp hmem.1
    have heq : ps.getD i 0 = q := by
      have := hmem.2
      exact of_decide_eq_true this
    rw [hw i hlt heq]

/-! Read/write disjointness: the position and velocity fields read by the
flock, attractor and vortex kernels lie outside the bands they write. -/

lemma offBand_F (q j : ℕ) (hj : j < 6 ∨ j = 9) : OffBand STATE.F_X (q * STATE_SIZE + j) := by
  simp only [OffBand, STATE_SIZE, STATE.F_X]
  omega

lemma offBand_V (q j : ℕ) (hj : j < 3 ∨ (5 < j ∧ j < 10)) :
    OffBand STATE.V_X (q * STATE_SIZE + j) := by
  simp only [OffBand, STATE_SIZE, STATE.V_X]
  omega

lemma posOf_congr_F (t s : State) (h : ∀ n, OffBand STATE.F_X n → t n = s n) (q : ℕ) :
    posOf t q = posOf s q := by
  simp only [posOf, STATE.P_X, STATE.P_Y, STATE.P_Z]
  rw [h _ (offBand_F q 0 (by omega)), h _ (offBand_F q 1 (by omega)),
    h _ (offBand_F q 2 (by omega))]

lemma velOf_congr_F (t s : State) (h : ∀ n, OffBand STATE.F_X n → t n = s n) (q : ℕ) :
    velOf t q = velOf s q := by
  simp only [velOf, STATE.V_X, STATE.V_Y, STATE.V_Z]
  rw [h _ (offBand_F q 3 (by omega)), h _ (offBand_F q 4 (by omega)),
    h _ (offBand_F q 5 (by omega))]

lemma posOf_congr_V (t s : State) (h : ∀ n, OffBand STATE.V_X n → t n = s n) (q : ℕ) :
    posOf t q = posOf s q := by
  simp only [posOf, STATE.P_X, STATE.P_Y, STATE.P_Z]
  rw [h _ (offBand_V q 0 (by omega)), h _ (offBand_V q 1 (by omega)),
    h _ (offBand_V q 2 (by omega))]

lemma lineA_congr (f : Force) (t s : State)
    (h : ∀ n, OffBand STATE.F_X n → t n = s n) (i : ℕ) : lineA f t i = lineA f s i := by
  simp only [lineA, posOf_congr_F t s h]

lemma paD_congr (f : Force) (t s : State)
    (h : ∀ n, OffBand STATE.F_X n → t n = s n) (i : ℕ) : paD f t i = paD f s i := by
  simp only [paD, posOf_congr_F t s h]

lemma upaD_congr (f : Force) (t s : State)
    (h : ∀ n, OffBand STATE.F_X n → t n = s n) (i : ℕ) : upaD f t i = upaD f s i := by
  simp only [upaD, posOf_congr_F t s h]

lemma vortexV_congr (f : Force) (t s : State)
    (h : ∀ n, OffBand STATE.V_X n → t n = s n) (i : ℕ) : vortexV f t i = vortexV f s i := by
  simp only [vortexV, posOf_congr_V t s h]

lemma flockSkipped_congr (f : Force) (t s : State)
    (h : ∀ n, OffBand STATE.F_X n → t n = s n) (i j : ℕ) :
    flockSkipped f t i j = flockSkipped f s i j := by
  simp only [flockSkipped, posOf_congr_F t s h, velOf_congr_F t s h]

lemma flockContribStep_congr (f : Force) (x_p x_g : Vec3) (t s : State)
    (h : ∀ n, OffBand STATE.F_X n → t n = s n) (i : ℕ) :
    flockContribStep f x_p x_g t i = flockContribStep f x_p x_g s i := by
  funext a j
  simp only [flockContribStep, posOf_congr_F t s h, velOf_congr_F t s h,
    flockSkipped_congr f t s h]

lemma flockA_congr (f : Force) (x_p x_g : Vec3) (t s : State)
    (h : ∀ n, OffBand STATE.F_X n → t n = s n) (i : ℕ) :
    flockA f x_p x_g t i = flockA f x_p x_g s i := by
  simp only [flockA, flockContribStep_congr f x_p x_g t s h]

/-- C2: a disabled `Force`'s `apply` leaves every element of the state buffer
unchanged, for every variant and every state buffer. -/
theorem disabled_apply_noop (f : Force) (env : Env) (s : State)
    (h : f.enabled = false) : f.apply env s = s := by
  simp [Force.apply, h]

/-- A concrete environment (flock size 3, zero goal, zero random stream). -/
def envZero : Env := ⟨3, Vec3.zero, fun _ => 0⟩

/-- A concrete state buffer holding `n` at slot `n`. -/
def sId : State := fun n => (n : ℝ)

/-- A concrete disabled spring force. -/
def fDisabled : Force := { type := FORCE_TYPE.FORCE_SPRING, p := [0, 1], enabled := false }

/-- Witness for C2 at a concrete disabled force and state. -/
theorem disabled_apply_noop_witness :
    fDisabled.enabled = false ∧ fDisabled.apply envZero sId = sId :=
  ⟨rfl, disabled_apply_noop _ _ _ rfl⟩

/-- C8: an enabled force whose type tag has no kernel case in the dispatch
(`FORCE_PLANETARY_GRAVITY = 5`, or any tag outside the enum's implemented
cases) falls to the default branch and leaves the state buffer unchanged. -/
theorem unimplemented_apply_noop (f : Force) (env : Env) (s : State)
    (he : f.enabled = true)
    (h0 : f.type ≠ FORCE_TYPE.FORCE_SIMP_GRAVITY)
    (h1 : f.type ≠ FORCE_TYPE.FORCE_DRAG)
    (h2 : f.type ≠ FORCE_TYPE.FORCE_WIND)
    (h3 : f.type ≠ FORCE_TYPE.FORCE_SPRING)
    (h4 : f.type ≠ FORCE_TYPE.FORCE_FLOCK)
    (h6 : f.type ≠ FORCE_TYPE.FORCE_LINE_ATTRACTOR)
    (h7 : f.type ≠ FORCE_TYPE.FORCE_VORTEX)
    (h8 : f.type ≠ FORCE_TYPE.FORCE_UNIFORM_POINT_ATTRACTOR)
    (h9 : f.type ≠ FORCE_TYPE.FORCE_POINT_ATTRACTOR) :
    f.apply env s = s := by
  simp [Force.apply, he, h0, h1, h2, h3, h4, h6, h7, h8, h9]

/-- A concrete enabled force with the unimplemented tag `FORCE_PLANETARY_GRAVITY`. -/
def fPlanetary : Force := { type := FORCE_TYPE.FORCE_PLANETARY_GRAVITY, p := [0, 1] }

/-- Witness for C8: a concrete enabled `FORCE_PLANETARY_GRAVITY` (type 5)
force applied to a concrete buffer changes nothing. -/
theorem unimplemented_apply_noop_witness :
    fPlanetary.enabled = true ∧ fPlanetary.apply envZero sId = sId := by
  refine ⟨rfl, unimplemented_apply_noop _ _ _ rfl ?_ ?_ ?_ ?_ ?_ ?_ ?_ ?_ ?_⟩
  all_goals simp [fPlanetary, FORCE_TYPE.FORCE_PLANETARY_GRAVITY,
    FORCE_TYPE.FORCE_SIMP_GRAVITY, FORCE_TYPE.FORCE_DRAG, FORCE_TYPE.FORCE_WIND,
    FORCE_TYPE.FORCE_SPRING, FORCE_TYPE.FORCE_FLOCK, FORCE_TYPE.FORCE_LINE_ATTRACTOR,
    FORCE_TYPE.FORCE_VORTEX, FORCE_TYPE.FORCE_UNIFORM_POINT_ATTRACTOR,
    FORCE_TYPE.FORCE_POINT_ATTRACTOR]

/-! Dispatch lemmas: `Force.apply` reduces to the variant kernel. -/

lemma apply_spring_eq (f : Force) (env : Env) (s : State)
    (ht : f.type = FORCE_TYPE.FORCE_SPRING) (he : f.enabled = true) :
    f.apply env s = applySpring f s := by
  simp [Force.apply, he, ht, FORCE_TYPE.FORCE_SIMP_GRAVITY, FORCE_TYPE.FORCE_DRAG,
    FORCE_TYPE.FORCE_WIND, FORCE_TYPE.FORCE_SPRING]

lemma apply_flock_eq (f : Force) (env : Env) (s : State)
    (ht : f.type = FORCE_TYPE.FORCE_FLOCK) (he : f.enabled = true) :
    f.apply env s = applyFlock f env s := by
  simp [Force.apply, he, ht, FORCE_TYPE.FORCE_SIMP_GRAVITY, FORCE_TYPE.FORCE_DRAG,
    FORCE_TYPE.FORCE_WIND, FORCE_TYPE.FORCE_SPRING, FORCE_TYPE.FORCE_FLOCK]

lemma apply_line_eq (f : Force) (env : Env) (s : State)
    (ht : f.type = FORCE_TYPE.FORCE_LINE_ATTRACTOR) (he : f.enabled = true) :
    f.apply env s = applyLineAttractor f s := by
  simp [Force.apply, he, ht, FORCE_TYPE.FORCE_SIMP_GRAVITY, FORCE_TYPE.FORCE_DRAG,
    FORCE_TYPE.FORCE_WIND, FORCE_TYPE.FORCE_SPRING, FORCE_TYPE.FORCE_FLOCK,
    FORCE_TYPE.FORCE_LINE_ATTRACTOR]

lemma apply_vortex_eq (f : Force) (env : Env) (s : State)
    (ht : f.type = FORCE_TYPE.FORCE_VORTEX) (he : f.enabled = true) :
    f.apply env s = applyVortex f s := by
  simp [Force.apply, he, ht, FORCE_TYPE.FORCE_SIMP_GRAVITY, FORCE_TYPE.FORCE_DRAG,
    FORCE_TYPE.FORCE_WIND, FORCE_TYPE.FORCE_SPRING, FORCE_TYPE.FORCE_FLOCK,
    FORCE_TYPE.FORCE_LINE_ATTRACTOR, FORCE_TYPE.FORCE_VORTEX]

lemma apply_pa_eq (f : Force) (env : Env) (s : State)
    (ht : f.type = FORCE_TYPE.FORCE_POINT_ATTRACTOR) (he : f.enabled = true) :
    f.apply env s = applyPointAttractor f s := by
  simp [Force.apply, he, ht, FORCE_TYPE.FORCE_SIMP_GRAVITY, FORCE_TYPE.FORCE_DRAG,
    FORCE_TYPE.FORCE_WIND, FORCE_TYPE.FORCE_SPRING, FORCE_TYPE.FORCE_FLOCK,
    FORCE_TYPE.FORCE_LINE_ATTRACTOR, FORCE_TYPE.FORCE_VORTEX,
    FORCE_TYPE.FORCE_UNIFORM_POINT_ATTRACTOR, FORCE_TYPE.FORCE_POINT_ATTRACTOR]

lemma vneg_nth (v : Vec3) (k : ℕ) : (⟨-v.x, -v.y, -v.z⟩ : Vec3).nth k = -(v.nth k) := by
  simp only [Vec3.nth]
  split_ifs <;> rfl

/-- The `+F` to `p0` / `-F` to `p1` accumulation pattern of the spring kernel:
the resulting delta at `p0`'s slot is always the exact negation of the delta
at `p1`'s slot (including when the two indices coincide, where both deltas
vanish). -/
lemma addVec_pair_delta (s : State) (i0 i1 b k : ℕ) (v : Vec3)
    (hb : b + 2 < STATE_SIZE) (hk : k ≤ 2) :
    addVec (addVec s i0 b v) i1 b ⟨-v.x, -v.y, -v.z⟩ (i0 * STATE_SIZE + b + k)
        - s (i0 * STATE_SIZE + b + k)
      = -(addVec (addVec s i0 b v) i1 b ⟨-v.x, -v.y, -v.z⟩ (i1 * STATE_SIZE + b + k)
        - s (i1 * STATE_SIZE + b + k)) := by
  by_cases h01 : i0 = i1
  · subst h01
    rw [addVec_nth _ _ _ _ _ hk, addVec_nth _ _ _ _ _ hk, vneg_nth]
    ring
  · have e0 : addVec (addVec s i0 b v) i1 b ⟨-v.x, -v.y, -v.z⟩ (i0 * STATE_SIZE + b + k)
        = s (i0 * STATE_SIZE + b + k) + v.nth k := by
      rw [addVec_otherq _ _ _ _ _ _ hb hk (Ne.symm h01), addVec_nth _ _ _ _ _ hk]
    have e1 : addVec (addVec s i0 b v) i1 b ⟨-v.x, -v.y, -v.z⟩ (i1 * STATE_SIZE + b + k)
        = s (i1 * STATE_SIZE + b + k) - v.nth k := by
      rw [addVec_nth _ _ _ _ _ hk, addVec_otherq _ _ _ _ _ _ hb hk h01, vneg_nth]
      ring
    rw [e0, e1]
    ring

/-- C3: for every enabled Spring force and any input positions, the force
vector `apply` adds to `p[0]`'s accumulator slots is the exact negation of
the vector it adds to `p[1]`'s (Newton's third law), including when the
per-axis `min(·, 12)` saturation clamp is active (the clamp is applied
before the `+F`/`-F` split, so it never breaks the symmetry). -/
theorem spring_third_law (f : Force) (env : Env) (s : State)
    (ht : f.type = FORCE_TYPE.FORCE_SPRING) (he : f.enabled = true)
    (k : ℕ) (hk : k ≤ 2) :
    f.apply env s (f.p.getD 0 0 * STATE_SIZE + STATE.F_X + k)
        - s (f.p.getD 0 0 * STATE_SIZE + STATE.F_X + k)
      = -(f.apply env s (f.p.getD 1 0 * STATE_SIZE + STATE.F_X + k)
        - s (f.p.getD 1 0 * STATE_SIZE + STATE.F_X + k)) := by
  rw [apply_spring_eq f env s ht he]
  exact addVec_pair_delta s (f.p.getD 0 0) (f.p.getD 1 0) STATE.F_X k
    ⟨_, _, _⟩ (by decide) hk

/-- A unit spring whose targets sit 100 apart on the x-axis, so the
saturation clamp at 12 is active. -/
def fSpringC3 : Force := { type := FORCE_TYPE.FORCE_SPRING, p := [0, 1], k := 1, lr := 1 }

/-- State with particle 1 at `(100, 0, 0)` and everything else zero. -/
def sClamp : State := fun n => if n = 10 then 100 else 0

/-- Witness for C3 at a concrete clamp-active configuration. -/
theorem spring_third_law_witness :
    fSpringC3.type = FORCE_TYPE.FORCE_SPRING ∧ fSpringC3.enabled = true ∧ (0 : ℕ) ≤ 2 ∧
      (fSpringC3.apply envZero sClamp (fSpringC3.p.getD 0 0 * STATE_SIZE + STATE.F_X + 0)
          - sClamp (fSpringC3.p.getD 0 0 * STATE_SIZE + STATE.F_X + 0)
        = -(fSpringC3.apply envZero sClamp (fSpringC3.p.getD 1 0 * STATE_SIZE + STATE.F_X + 0)
          - sClamp (fSpringC3.p.getD 1 0 * STATE_SIZE + STATE.F_X + 0))) :=
  ⟨rfl, rfl, by decide, spring_third_law fSpringC3 envZero sClamp rfl rfl 0 (by decide)⟩

lemma sqrt_four : Real.sqrt 4 = 2 := by
  rw [show (4 : ℝ) = 2 ^ 2 by norm_num, Real.sqrt_sq (by norm_num : (0 : ℝ) ≤ 2)]

/-- The spring of the spec's end-to-end example: `k = 1`, natural length 1,
damp 0, targeting particles `[0, 1]`. -/
def fSpringC1 : Force := { type := FORCE_TYPE.FORCE_SPRING, p := [0, 1], k := 1, lr := 1, d := 0 }

/-- C1: with `STATE_SIZE = 10`, particle 0 at the origin and particle 1 at
`(2,0,0)`, the example spring adds exactly `+1` to particle 0's `F_X` slot
(slot 6) and exactly `-1` to particle 1's `F_X` slot (slot 16)
(`distance = 2`, `stretch = 1`, `F_X = min(1*1*2/2, 12) = 1`), and adds `0`
to both particles' `F_Y` and `F_Z` slots. -/
theorem spring_example (env : Env) (s : State)
    (h0 : s 0 = 0) (h1 : s 1 = 0) (h2 : s 2 = 0)
    (h10 : s 10 = 2) (h11 : s 11 = 0) (h12 : s 12 = 0) :
    fSpringC1.apply env s 6 = s 6 + 1 ∧
    fSpringC1.apply env s 16 = s 16 + (-1) ∧
    fSpringC1.apply env s 7 = s 7 + 0 ∧
    fSpringC1.apply env s 8 = s 8 + 0 ∧
    fSpringC1.apply env s 17 = s 17 + 0 ∧
    fSpringC1.apply env s 18 = s 18 + 0 := by
  rw [apply_spring_eq fSpringC1 env s rfl rfl]
  simp only [applySpring, fSpringC1, List.getD]
  norm_num [h0, h1, h2, h10, h11, h12, STATE.P_X, STATE.P_Y, STATE.P_Z, STATE.F_X, STATE_SIZE]
  rw [sqrt_four]
  rw [show ((2:ℝ) - 1) * 2 / 2 ⊓ 12 = 1 by norm_num [min_eq_left]]
  norm_num [addVec, addAt, upd, STATE_SIZE]

/-- The state buffer of the spec's end-to-end example: particle 0 at the
origin, particle 1 at `(2,0,0)`, all other fields zero. -/
def sSpringC1 : State := fun n => if n = 10 then 2 else 0

/-- Witness for C1 at the concrete example state. -/
theorem spring_example_witness :
    sSpringC1 0 = 0 ∧ sSpringC1 10 = 2 ∧
      (fSpringC1.apply envZero sSpringC1 6 = sSpringC1 6 + 1 ∧
       fSpringC1.apply envZero sSpringC1 16 = sSpringC1 16 + (-1) ∧
       fSpringC1.apply envZero sSpringC1 7 = sSpringC1 7 + 0 ∧
       fSpringC1.apply envZero sSpringC1 8 = sSpringC1 8 + 0 ∧
       fSpringC1.apply envZero sSpringC1 17 = sSpringC1 17 + 0 ∧
       fSpringC1.apply envZero sSpringC1 18 = sSpringC1 18 + 0) :=
  ⟨by norm_num [sSpringC1], by norm_num [sSpringC1],
    spring_example envZero sSpringC1 (by norm_num [sSpringC1]) (by norm_num [sSpringC1])
      (by norm_num [sSpringC1]) (by norm_num [sSpringC1]) (by norm_num [sSpringC1])
      (by norm_num [sSpringC1])⟩

lemma zero_nth (k : ℕ) : Vec3.zero.nth k = 0 := by
  simp only [Vec3.zero, Vec3.nth]
  split_ifs <;> rfl

/-- C6: for every enabled PointAttractor and target particle `q`: beyond the
influence length (`|anchor - position| > L`) the force slots are unchanged;
within it, `apply` adds `(anchor - position)` scaled by
`r / distance^(pow+1)`, and that contribution is nonzero whenever `r ≠ 0`
and the distance is positive. -/
theorem point_attractor_cutoff (f : Force) (env : Env) (s : State) (q : ℕ)
    (ht : f.type = FORCE_TYPE.FORCE_POINT_ATTRACTOR) (he : f.enabled = true) :
    (Vec3.len (Vec3.sub f.x_a (posOf s q)) > f.L →
      ∀ k, k ≤ 2 →
        f.apply env s (q * STATE_SIZE + STATE.F_X + k) = s (q * STATE_SIZE + STATE.F_X + k)) ∧
    (¬ Vec3.len (Vec3.sub f.x_a (posOf s q)) > f.L → f.p.count q = 1 →
      ∀ k, k ≤ 2 →
        f.apply env s (q * STATE_SIZE + STATE.F_X + k) = s (q * STATE_SIZE + STATE.F_X + k) +
          (Vec3.scale (Vec3.sub f.x_a (posOf s q))
            (f.r / Real.rpow (Vec3.len (Vec3.sub f.x_a (posOf s q))) (f.pow + 1))).nth k) ∧
    (f.r ≠ 0 → 0 < Vec3.len (Vec3.sub f.x_a (posOf s q)) →
      Vec3.scale (Vec3.sub f.x_a (posOf s q))
          (f.r / Real.rpow (Vec3.len (Vec3.sub f.x_a (posOf s q))) (f.pow + 1)) ≠ Vec3.zero) := by
  rw [apply_pa_eq f env s ht he]
  simp only [applyPointAttractor]
  refine ⟨?_, ?_, ?_⟩
  · intro hfar k hk
    rw [applyKernel_count f.p STATE.F_X (paD f) s (by decide)
      (fun t i h => paD_congr f t s h i) q k hk Vec3.zero ?_]
    · rw [zero_nth]; ring
    · intro i hi hqi
      simp only [paD, hqi, if_pos hfar]
  · intro hnear hcount k hk
    rw [applyKernel_count f.p STATE.F_X (paD f) s (by decide)
      (fun t i h => paD_congr f t s h i) q k hk
      (Vec3.scale (Vec3.sub f.x_a (posOf s q))
        (f.r / Real.rpow (Vec3.len (Vec3.sub f.x_a (posOf s q))) (f.pow + 1))) ?_]
    · rw [hcount]; norm_num
    · intro i hi hqi
      simp only [paD, hqi, if_neg hnear]
  · intro hr hlen hzero
    have hc : f.r / Real.rpow (Vec3.len (Vec3.sub f.x_a (posOf s q))) (f.pow + 1) ≠ 0 :=
      div_ne_zero hr (ne_of_gt (Real.rpow_pos_of_pos hlen _))
    have hx : (Vec3.sub f.x_a (posOf s q)).x = 0 := by
      have := congrArg Vec3.x hzero
      simp only [Vec3.scale, Vec3.zero] at this
      exact (mul_eq_zero.mp this).resolve_right hc
    have hy : (Vec3.sub f.x_a (posOf s q)).y = 0 := by
      have := congrArg Vec3.y hzero
      simp only [Vec3.scale, Vec3.zero] at this
      exact (mul_eq_zero.mp this).resolve_right hc
    have hz : (Vec3.sub f.x_a (posOf s q)).z = 0 := by
      have := congrArg Vec3.z hzero
      simp only [Vec3.scale, Vec3.zero] at this
      exact (mul_eq_zero.mp this).resolve_right hc
    rw [Vec3.len, hx, hy, hz] at hlen
    norm_num at hlen

lemma sqrt_nine : Real.sqrt 9 = 3 := by
  rw [show (9 : ℝ) = 3 ^ 2 by norm_num, Real.sqrt_sq (by norm_num : (0 : ℝ) ≤ 3)]

/-- A point attractor at `(3,0,0)` with `pow = 1`, `L = 5`, `r = 1`,
targeting particle 0. -/
def fPAW : Force :=
  { type := FORCE_TYPE.FORCE_POINT_ATTRACTOR, p := [0], x_a := ⟨3, 0, 0⟩, pow := 1, L := 5, r := 1 }

/-- The all-zero state buffer. -/
def sZero : State := fun _ => 0

/-- Witness for C6: particle 0 at the origin, anchor at distance 3 within
`L = 5`; the added `F_X` contribution is `3 * (1 / 3^2) = 1/3`. -/
theorem point_attractor_cutoff_witness :
    fPAW.apply envZero sZero 6 = sZero 6 + 1 / 3 := by
  have hlen : Vec3.len (Vec3.sub fPAW.x_a (posOf sZero 0)) = 3 := by
    simp only [fPAW, sZero, posOf, Vec3.sub, Vec3.len]
    norm_num [sqrt_nine]
  have h := (point_attractor_cutoff fPAW envZero sZero 0 rfl rfl).2.1
    (by rw [hlen]; norm_num [fPAW]) (by simp [fPAW]) 0 (by decide)
  rw [hlen] at h
  have hrp : Real.rpow 3 (fPAW.pow + 1) = 9 := by
    have h2 : fPAW.pow + 1 = ((2 : ℕ) : ℝ) := by norm_num [fPAW]
    rw [h2]
    have h3 : Real.rpow 3 ((2 : ℕ) : ℝ) = (3 : ℝ) ^ (2 : ℕ) := Real.rpow_natCast 3 2
    rw [h3]
    norm_num
  rw [hrp] at h
  simp only [fPAW, sZero, posOf, Vec3.sub, Vec3.scale, Vec3.nth, STATE_SIZE, STATE.F_X] at h
  norm_num at h
  simpa [fPAW, sZero] using h

/-- The exact delta the line-attractor kernel adds at particle `q`'s force
slots: (occurrences of `q`) times the in-range radial contribution. -/
lemma line_apply_delta (f : Force) (env : Env) (s : State) (q : ℕ)
    (ht : f.type = FORCE_TYPE.FORCE_LINE_ATTRACTOR) (he : f.enabled = true)
    (k : ℕ) (hk : k ≤ 2) :
    f.apply env s (q * STATE_SIZE + STATE.F_X + k) = s (q * STATE_SIZE + STATE.F_X + k) +
      (f.p.count q : ℝ) *
        (if 0.01 ≤ Vec3.dot (Vec3.sub (posOf s q) f.x_a) f.a ∧
            Vec3.dot (Vec3.sub (posOf s q) f.x_a) f.a < f.L then
          Vec3.scale (Vec3.scaleAndAdd (Vec3.sub (posOf s q) f.x_a) f.a
              (-(Vec3.dot (Vec3.sub (posOf s q) f.x_a) f.a)))
            (-9.8 * Real.rpow (Vec3.len (Vec3.scaleAndAdd (Vec3.sub (posOf s q) f.x_a) f.a
              (-(Vec3.dot (Vec3.sub (posOf s q) f.x_a) f.a)))) (f.pow + 1))
        else Vec3.zero).nth k := by
  rw [apply_line_eq f env s ht he]
  simp only [applyLineAttractor]
  exact applyKernel_count f.p STATE.F_X (lineA f) s (by decide)
    (fun t i h => lineA_congr f t s h i) q k hk _
    (fun i hi hqi => by simp only [lineA, hqi])

/-- Length of a scaled vector. -/
lemma len_scale (v : Vec3) (c : ℝ) : (Vec3.scale v c).len = |c| * v.len := by
  simp only [Vec3.scale, Vec3.len]
  rw [show (v.x * c) ^ 2 + (v.y * c) ^ 2 + (v.z * c) ^ 2
      = c ^ 2 * (v.x ^ 2 + v.y ^ 2 + v.z ^ 2) by ring]
  rw [Real.sqrt_mul (sq_nonneg c), Real.sqrt_sq_eq_abs]

/-- C5 (amended): for every enabled LineAttractor and target particle `q`,
the force slots change only when the axial offset lies in `[0.01, L)`; when
they do, the added vector is the radial offset vector scaled by
`-9.8 * r^(pow+1)` (so it points along the negative radial direction), whose
magnitude is `9.8 * r^(pow+2)` — not `9.8 * r^(pow+1)` as the spec stated,
because the source scales the unnormalized radial vector. -/
theorem line_attractor_behavior (f : Force) (env : Env) (s : State) (q : ℕ)
    (ht : f.type = FORCE_TYPE.FORCE_LINE_ATTRACTOR) (he : f.enabled = true) :
    (¬ (0.01 ≤ Vec3.dot (Vec3.sub (posOf s q) f.x_a) f.a ∧
        Vec3.dot (Vec3.sub (posOf s q) f.x_a) f.a < f.L) →
      ∀ k, k ≤ 2 →
        f.apply env s (q * STATE_SIZE + STATE.F_X + k) = s (q * STATE_SIZE + STATE.F_X + k)) ∧
    ((0.01 ≤ Vec3.dot (Vec3.sub (posOf s q) f.x_a) f.a ∧
        Vec3.dot (Vec3.sub (posOf s q) f.x_a) f.a < f.L) → f.p.count q = 1 →
      ∀ k, k ≤ 2 →
        f.apply env s (q * STATE_SIZE + STATE.F_X + k) = s (q * STATE_SIZE + STATE.F_X + k) +
          (Vec3.scale (Vec3.scaleAndAdd (Vec3.sub (posOf s q) f.x_a) f.a
              (-(Vec3.dot (Vec3.sub (posOf s q) f.x_a) f.a)))
            (-9.8 * Real.rpow (Vec3.len (Vec3.scaleAndAdd (Vec3.sub (posOf s q) f.x_a) f.a
              (-(Vec3.dot (Vec3.sub (posOf s q) f.x_a) f.a)))) (f.pow + 1))).nth k) ∧
    (∀ rv : Vec3, 0 < rv.len →
      (Vec3.scale rv (-9.8 * Real.rpow rv.len (f.pow + 1))).len
        = 9.8 * Real.rpow rv.len (f.pow + 2)) := by
  refine ⟨?_, ?_, ?_⟩
  · intro hout k hk
    rw [line_apply_delta f env s q ht he k hk, if_neg hout, zero_nth]
    ring
  · intro hin hcount k hk
    rw [line_apply_delta f env s q ht he k hk, if_pos hin, hcount]
    norm_num
  · intro rv hrv
    rw [len_scale]
    have hnn : (0 : ℝ) ≤ 9.8 * Real.rpow rv.len (f.pow + 1) :=
      mul_nonneg (by norm_num) (Real.rpow_nonneg (le_of_lt hrv) _)
    have h1 : -9.8 * Real.rpow rv.len (f.pow + 1) = -(9.8 * Real.rpow rv.len (f.pow + 1)) := by
      ring
    rw [h1, abs_neg, abs_of_nonneg hnn]
    have h2 : f.pow + 2 = f.pow + 1 + 1 := by ring
    have h3 : Real.rpow rv.len (f.pow + 1 + 1)
        = Real.rpow rv.len (f.pow + 1) * Real.rpow rv.len 1 := Real.rpow_add hrv _ _
    have h4 : Real.rpow rv.len 1 = rv.len := Real.rpow_one _
    rw [h2, h3, h4]
    ring


/-- Line attractor along the z-axis through the origin, `pow = 2`, `L = 5`,
targeting particle 0. -/
def fLineCE : Force :=
  { type := FORCE_TYPE.FORCE_LINE_ATTRACTOR, p := [0], x_a := Vec3.zero, a := ⟨0, 0, 1⟩,
    pow := 2, L := 5 }

/-- Particle 0 at `(2, 0, 1)`: axial offset 1 (inside `[0.01, 5)`), radial
distance 2. -/
def sLineCE : State := fun n => if n = 0 then 2 else if n = 2 then 1 else 0

/-- Concrete evaluation of the line-attractor kernel at `sLineCE`:
the added force vector is `(2 * (-9.8 * 8), 0, 0)`. -/
lemma lineCE_eval : fLineCE.apply envZero sLineCE 6 = sLineCE 6 + 2 * (-9.8 * 8) ∧
    fLineCE.apply envZero sLineCE 7 = sLineCE 7 ∧
    fLineCE.apply envZero sLineCE 8 = sLineCE 8 := by
  have h0 := line_apply_delta fLineCE envZero sLineCE 0 rfl rfl 0 (by decide)
  have h1 := line_apply_delta fLineCE envZero sLineCE 0 rfl rfl 1 (by decide)
  have h2 := line_apply_delta fLineCE envZero sLineCE 0 rfl rfl 2 (by decide)
  have hpos : posOf sLineCE 0 = ⟨2, 0, 1⟩ := by
    simp only [posOf, sLineCE, STATE_SIZE, STATE.P_X, STATE.P_Y, STATE.P_Z]
    norm_num
  rw [hpos] at h0 h1 h2
  simp only [fLineCE, Vec3.sub, Vec3.zero, Vec3.dot, Vec3.scaleAndAdd, Vec3.len,
    Vec3.scale, Vec3.nth, STATE_SIZE, STATE.F_X] at h0 h1 h2
  norm_num [sqrt_four] at h0 h1 h2
  refine ⟨?_, by simp only [fLineCE, Vec3.zero]; rw [h1], by simp only [fLineCE, Vec3.zero]; rw [h2]⟩
  simp only [fLineCE, Vec3.zero]
  rw [h0]
  norm_num

/-- Counterexample to C5 as stated: at `sLineCE` the particle is affected
(axial offset in range, radial distance `r = 2`), but the magnitude of the
vector actually added is `156.8 = 9.8 * 2^(pow+2)`, not
`9.8 * r^(pow+1) = 78.4` as the claim asserts. -/
theorem line_attractor_claim_ce :
    (0.01 ≤ Vec3.dot (Vec3.sub (posOf sLineCE 0) fLineCE.x_a) fLineCE.a ∧
      Vec3.dot (Vec3.sub (posOf sLineCE 0) fLineCE.x_a) fLineCE.a < fLineCE.L) ∧
    Vec3.len (Vec3.scaleAndAdd (Vec3.sub (posOf sLineCE 0) fLineCE.x_a) fLineCE.a
      (-(Vec3.dot (Vec3.sub (posOf sLineCE 0) fLineCE.x_a) fLineCE.a))) = 2 ∧
    Vec3.len ⟨fLineCE.apply envZero sLineCE 6 - sLineCE 6,
              fLineCE.apply envZero sLineCE 7 - sLineCE 7,
              fLineCE.apply envZero sLineCE 8 - sLineCE 8⟩
      ≠ 9.8 * Real.rpow 2 (fLineCE.pow + 1) := by
  obtain ⟨h6, h7, h8⟩ := lineCE_eval
  have hpos : posOf sLineCE 0 = ⟨2, 0, 1⟩ := by
    simp only [posOf, sLineCE, STATE_SIZE, STATE.P_X, STATE.P_Y, STATE.P_Z]
    norm_num
  refine ⟨?_, ?_, ?_⟩
  · rw [hpos]
    simp only [fLineCE, Vec3.sub, Vec3.zero, Vec3.dot]
    norm_num
  · rw [hpos]
    simp only [fLineCE, Vec3.sub, Vec3.zero, Vec3.dot, Vec3.scaleAndAdd, Vec3.len]
    norm_num [sqrt_four]
  · rw [h6, h7, h8]
    simp only [fLineCE, Vec3.len]
    norm_num
    rw [show (614656 : ℝ) = 784 ^ 2 by norm_num,
      Real.sqrt_sq (by norm_num : (0 : ℝ) ≤ 784),
      show (25 : ℝ) = 5 ^ 2 by norm_num,
      Real.sqrt_sq (by norm_num : (0 : ℝ) ≤ 5)]
    norm_num

/-- Witness for the amended C5 at the concrete configuration: the in-range
branch adds `2 * (-9.8 * 8) = -(784/5)` to particle 0's `F_X` slot. -/
theorem line_attractor_behavior_witness :
    fLineCE.apply envZero sLineCE 6 = sLineCE 6 + -(784 / 5) := by
  have hpos : posOf sLineCE 0 = ⟨2, 0, 1⟩ := by
    simp only [posOf, sLineCE, STATE_SIZE, STATE.P_X, STATE.P_Y, STATE.P_Z]
    norm_num
  have hin : 0.01 ≤ Vec3.dot (Vec3.sub (posOf sLineCE 0) fLineCE.x_a) fLineCE.a ∧
      Vec3.dot (Vec3.sub (posOf sLineCE 0) fLineCE.x_a) fLineCE.a < fLineCE.L := by
    rw [hpos]
    simp only [fLineCE, Vec3.sub, Vec3.zero, Vec3.dot]
    norm_num
  have h := (line_attractor_behavior fLineCE envZero sLineCE 0 rfl rfl).2.1 hin
    (by decide) 0 (by decide)
  rw [hpos] at h
  simp only [fLineCE, Vec3.sub, Vec3.zero, Vec3.dot, Vec3.scaleAndAdd, Vec3.len,
    Vec3.scale, Vec3.nth, STATE_SIZE, STATE.F_X] at h
  norm_num [sqrt_four] at h
  simp only [fLineCE, Vec3.zero] at h ⊢
  rw [h]

/-- Length of the zero vector. -/
lemma len_zero : Vec3.zero.len = 0 := by
  simp only [Vec3.zero, Vec3.len]
  norm_num

/-- `f_max = Math.pow(10, f_R + 1) = 1000`. -/
lemma f_max_eq : f_max = 1000 := by
  simp only [f_max, f_R]
  rw [show (2 : ℝ) + 1 = ((3 : ℕ) : ℝ) by norm_num]
  rw [show Real.rpow 10 ((3 : ℕ) : ℝ) = (10 : ℝ) ^ (3 : ℕ) from Real.rpow_natCast 10 3]
  norm_num

/-- Rotating about the z-line by an angle with `cos = 1`, `sin = 0` is the
identity. -/
lemma rotateZ_eq_self (a b : Vec3) (rad : ℝ) (hc : Real.cos rad = 1)
    (hs : Real.sin rad = 0) : Vec3.rotateZ a b rad = a := by
  cases a
  cases b
  simp only [Vec3.rotateZ, hc, hs, Vec3.mk.injEq]
  refine ⟨by ring, by ring, by ring⟩

lemma vecSub_self (a : Vec3) : Vec3.sub a a = Vec3.zero := by
  simp only [Vec3.sub, Vec3.zero, Vec3.mk.injEq]
  refine ⟨by ring, by ring, by ring⟩

lemma cos_four_pi : Real.cos (2 * Real.pi * 2) = 1 := by
  rw [show 2 * Real.pi * 2 = ((2 : ℕ) : ℝ) * (2 * Real.pi) by push_cast; ring]
  exact Real.cos_nat_mul_two_pi 2

lemma sin_four_pi : Real.sin (2 * Real.pi * 2) = 0 := by
  rw [show 2 * Real.pi * 2 = ((4 : ℕ) : ℝ) * Real.pi by push_cast; ring]
  exact Real.sin_nat_mul_pi 4

/-- C7: a particle lying exactly on the vortex axis (zero radial residual
after the axial/radial decomposition) has all of its fields unchanged by an
enabled Vortex force.  Note the source's radius guard is `r < _r`, which
radial distance 0 *does* pass (for `_r > 0`); the particle is nonetheless
unaffected because the resulting rotation angle is an exact multiple of
`2π` (or zero), so `rotateZ` is the identity and the velocity increment
vanishes. -/
theorem vortex_on_axis_unaffected (f : Force) (env : Env) (s : State) (q : ℕ)
    (ht : f.type = FORCE_TYPE.FORCE_VORTEX) (he : f.enabled = true)
    (hax : Vec3.scaleAndAdd (Vec3.sub (posOf s q) f.x_a) f.a
      (-(Vec3.dot f.a (Vec3.sub (posOf s q) f.x_a))) = Vec3.zero) :
    ∀ m, m < STATE_SIZE → f.apply env s (q * STATE_SIZE + m) = s (q * STATE_SIZE + m) := by
  intro m hm
  rw [apply_vortex_eq f env s ht he]
  simp only [applyVortex]
  have hw : ∀ i, i < f.p.length → f.p.getD i 0 = q → vortexV f s i = Vec3.zero := by
    intro i hi hqi
    simp only [vortexV, hqi, hax, len_zero, f_R]
    rw [div_zero]
    split_ifs with houter hinner
    · by_cases hpow : f.pow = 0
      · have h1 : Real.rpow 0 (0 : ℝ) = 1 := Real.rpow_zero 0
        rw [hpow, h1, f_max_eq]
        rw [show min (1000 : ℝ) (1 * 2) = 2 by rw [min_eq_right] <;> norm_num]
        rw [rotateZ_eq_self _ _ _ cos_four_pi sin_four_pi, vecSub_self]
      · have hz : Real.rpow 0 f.pow = 0 := Real.zero_rpow hpow
        rw [hz, f_max_eq]
        rw [show min (1000 : ℝ) (0 * 2) = 0 by rw [min_eq_right] <;> norm_num]
        rw [mul_zero, rotateZ_eq_self _ _ _ Real.cos_zero Real.sin_zero, vecSub_self]
    · rfl
    · rfl
  by_cases hband : m = 3 ∨ m = 4 ∨ m = 5
  · rcases hband with h | h | h <;> subst h
    · have h3 := applyKernel_count f.p STATE.V_X (vortexV f) s (by decide)
        (fun t i h => vortexV_congr f t s h i) q 0 (by decide) Vec3.zero hw
      simpa [zero_nth, STATE.V_X] using h3
    · have h4 := applyKernel_count f.p STATE.V_X (vortexV f) s (by decide)
        (fun t i h => vortexV_congr f t s h i) q 1 (by decide) Vec3.zero hw
      simpa [zero_nth, STATE.V_X] using h4
    · have h5 := applyKernel_count f.p STATE.V_X (vortexV f) s (by decide)
        (fun t i h => vortexV_congr f t s h i) q 2 (by decide) Vec3.zero hw
      simpa [zero_nth, STATE.V_X] using h5
  · exact applyKernel_off f.p STATE.V_X (vortexV f) s (by decide)
      (fun t i h => vortexV_congr f t s h i) _
      (by simp only [OffBand, STATE_SIZE, STATE.V_X] at hm ⊢; omega)

/-- A z-axis vortex through the origin (`pow = 2`, `L = 5`, `r = 1`). -/
def fVortexW : Force :=
  { type := FORCE_TYPE.FORCE_VORTEX, p := [0], x_a := Vec3.zero, a := ⟨0, 0, 1⟩,
    pow := 2, L := 5, r := 1 }

/-- Particle 0 at `(0, 0, 1)` — exactly on the vortex axis. -/
def sVortexW : State := fun n => if n = 2 then 1 else 0

/-- Witness for C7 at the concrete on-axis configuration. -/
theorem vortex_on_axis_unaffected_witness :
    Vec3.scaleAndAdd (Vec3.sub (posOf sVortexW 0) fVortexW.x_a) fVortexW.a
      (-(Vec3.dot fVortexW.a (Vec3.sub (posOf sVortexW 0) fVortexW.x_a))) = Vec3.zero ∧
    (∀ m, m < STATE_SIZE → fVortexW.apply envZero sVortexW (0 * STATE_SIZE + m)
      = sVortexW (0 * STATE_SIZE + m)) := by
  have hax : Vec3.scaleAndAdd (Vec3.sub (posOf sVortexW 0) fVortexW.x_a) fVortexW.a
      (-(Vec3.dot fVortexW.a (Vec3.sub (posOf sVortexW 0) fVortexW.x_a))) = Vec3.zero := by
    simp only [posOf, sVortexW, fVortexW, Vec3.sub, Vec3.zero, Vec3.dot, Vec3.scaleAndAdd,
      STATE_SIZE, STATE.P_X, STATE.P_Y, STATE.P_Z, Vec3.mk.injEq]
    norm_num
  exact ⟨hax, vortex_on_axis_unaffected fVortexW envZero sVortexW 0 rfl rfl hax⟩

/-- A skipped neighbor leaves the accumulated acceleration unchanged. -/
lemma flockContribStep_skip (f : Force) (x_p x_g : Vec3) (s : State) (i j : ℕ) (a : Vec3)
    (h : flockSkipped f s i j) : flockContribStep f x_p x_g s i a j = a := by
  simp only [flockContribStep, if_pos h]

/-- If every neighbor of position `i` is skipped, the inner loop accumulates
nothing. -/
lemma flockA_zero (f : Force) (x_p x_g : Vec3) (s : State) (i : ℕ)
    (hskip : ∀ j, j < f.p.length → flockSkipped f s i j) :
    flockA f x_p x_g s i = Vec3.zero := by
  simp only [flockA]
  have key : ∀ l : List ℕ, (∀ j ∈ l, flockSkipped f s i j) → ∀ acc : Vec3,
      l.foldl (flockContribStep f x_p x_g s i) acc = acc := by
    intro l
    induction l with
    | nil => intro _ acc; rfl
    | cons hd tl ih =>
      intro h acc
      rw [List.foldl_cons,
        flockContribStep_skip f x_p x_g s i hd acc (h hd (List.mem_cons_self hd tl))]
      exact ih (fun j hj => h j (List.mem_cons_of_mem _ hj)) acc
  exact key _ (fun j hj => hskip j (List.mem_range.mp hj)) Vec3.zero

/-- C10: the obstacle-avoidance and goal-seeking contributions of the flock
kernel live inside the neighbor loop, after the visibility check; therefore
a target particle whose every neighbor is skipped (self, coincident, out of
range, or in a blind spot — at every position where that particle occurs in
the target list) has its force-accumulator slots left entirely unchanged:
it receives no obstacle-avoidance or goal-seeking force either. -/
theorem flock_all_skipped_unchanged (f : Force) (env : Env) (s : State) (q : ℕ)
    (ht : f.type = FORCE_TYPE.FORCE_FLOCK) (he : f.enabled = true)
    (hskip : ∀ i, i < f.p.length → f.p.getD i 0 = q →
      ∀ j, j < f.p.length → flockSkipped f s i j) :
    ∀ k, k ≤ 2 → f.apply env s (q * STATE_SIZE + STATE.F_X + k)
      = s (q * STATE_SIZE + STATE.F_X + k) := by
  intro k hk
  rw [apply_flock_eq f env s ht he]
  simp only [applyFlock]
  rw [applyKernel_count f.p STATE.F_X
    (flockA f (posOf s (env.boidCount - 1)) env.goal) s (by decide)
    (fun t i h => flockA_congr f _ _ t s h i) q k hk Vec3.zero
    (fun i hi hqi =>
      flockA_zero f _ _ s i (fun j hj => hskip i hi hqi j hj))]
  rw [zero_nth]
  ring

lemma sqrt_twentyfive : Real.sqrt 25 = 5 := by
  rw [show (25 : ℝ) = 5 ^ 2 by norm_num, Real.sqrt_sq (by norm_num : (0 : ℝ) ≤ 5)]

/-- A flock of two boids with visual range `r2 = 1`, all weights nonzero. -/
def fFlockW : Force :=
  { type := FORCE_TYPE.FORCE_FLOCK, p := [0, 1], r1 := 0.5, r2 := 1, t1 := 1, t2 := 2,
    ka := 1, kv := 1, kc := 1, koa := 1, kgs := 1 }

/-- Boid 0 at the origin, boid 1 at `(5,0,0)` — beyond visual range. -/
def sFlockW : State := fun n => if n = 10 then 5 else 0

/-- Witness for C10: with the only other boid out of range, boid 0's force
slots are untouched. -/
theorem flock_all_skipped_unchanged_witness :
    (∀ i, i < fFlockW.p.length → fFlockW.p.getD i 0 = 0 →
      ∀ j, j < fFlockW.p.length → flockSkipped fFlockW sFlockW i j) ∧
    (∀ k, k ≤ 2 → fFlockW.apply envZero sFlockW (0 * STATE_SIZE + STATE.F_X + k)
      = sFlockW (0 * STATE_SIZE + STATE.F_X + k)) := by
  have hskip : ∀ i, i < fFlockW.p.length → fFlockW.p.getD i 0 = 0 →
      ∀ j, j < fFlockW.p.length → flockSkipped fFlockW sFlockW i j := by
    intro i hi hqi j hj
    simp only [fFlockW, List.length_cons, List.length_nil] at hi hj
    interval_cases i
    · interval_cases j
      · simp [flockSkipped]
      · simp only [flockSkipped, fFlockW, sFlockW, posOf, velOf, Vec3.sub, Vec3.len,
          STATE_SIZE, STATE.P_X, STATE.P_Y, STATE.P_Z, List.getD]
        norm_num [sqrt_twentyfive]
    · simp [fFlockW] at hqi
  exact ⟨hskip, flock_all_skipped_unchanged fFlockW envZero sFlockW 0 rfl rfl hskip⟩

/-- A flock of two boids with only collision avoidance active (`ka = 1`,
other weights zero), `r1 = 3`, `r2 = 4`, `t1 = 1`, `t2 = 2`. -/
def fFlockC4 : Force :=
  { type := FORCE_TYPE.FORCE_FLOCK, p := [0, 1], r1 := 3, r2 := 4, t1 := 1, t2 := 2, ka := 1 }

/-- Environment for the C4 run: flock size 3 (predator is particle 2), goal
at `(9,9,9)`. -/
def envC4 : Env := ⟨3, ⟨9, 9, 9⟩, fun _ => 0⟩

/-- Boid 0 at the origin with velocity `(1,0,0)`, boid 1 at `(2,0,0)` with
velocity `(1,0,0)`, predator (particle 2) at `(0,5,0)`. -/
def sFlockC4 : State := fun n =>
  if n = 3 then 1 else if n = 10 then 2 else if n = 13 then 1 else if n = 21 then 5 else 0

/-- Boid 1 passes boid 0's visibility check (distance 2 ≤ 4, view angle 0). -/
lemma flockC4_not_skipped : ¬ flockSkipped fFlockC4 sFlockC4 0 1 := by
  simp only [flockSkipped, fFlockC4, sFlockC4, posOf, velOf, Vec3.sub, Vec3.len, Vec3.angle,
    Vec3.dot, STATE_SIZE, STATE.P_X, STATE.P_Y, STATE.P_Z, STATE.V_X, STATE.V_Y, STATE.V_Z,
    List.getD]
  norm_num [sqrt_four, Real.sqrt_one]

/-- The kernel's accumulated acceleration for boid 0: the collision-avoidance
term evaluates to `x_ij * d_ij * (-ka/d_ij) = -ka * x_ij = (-2, 0, 0)`
(magnitude `ka * d_ij = 2`, growing with distance), because the source
builds `x_hat` by scaling `x_ij` *by* `d_ij` instead of normalizing. -/
lemma flockC4_accel : flockA fFlockC4 ⟨0, 5, 0⟩ ⟨9, 9, 9⟩ sFlockC4 0 = ⟨-2, 0, 0⟩ := by
  simp only [flockA]
  rw [show List.range fFlockC4.p.length = [0, 1] from rfl]
  simp only [List.foldl_cons, List.foldl_nil]
  rw [flockContribStep_skip fFlockC4 _ _ sFlockC4 0 0 Vec3.zero (by simp [flockSkipped])]
  simp only [flockContribStep]
  rw [if_neg flockC4_not_skipped]
  simp only [fFlockC4, sFlockC4, posOf, velOf, Vec3.sub, Vec3.len, Vec3.angle, Vec3.dot,
    Vec3.scale, Vec3.add, Vec3.zero, STATE_SIZE, STATE.P_X, STATE.P_Y, STATE.P_Z,
    STATE.V_X, STATE.V_Y, STATE.V_Z, List.getD, Vec3.mk.injEq]
  norm_num [sqrt_four, Real.sqrt_one, sqrt_twentyfive, Real.arccos_one]

/-- C4 failing-input evaluation: with `ka = 1` and the neighbor at distance
`d = 2`, the code adds `-2` to boid 0's `F_X` (magnitude `ka * d`), whereas
the claimed inverse-distance repulsion `-(ka/d) * unit` would add `-1/2`
(magnitude `ka / d`).  The code contradicts its own comments
(`a_ij^a = -(k_a / d_ij) * x_hat` with `x_hat` "the directional vector"). -/
theorem flock_avoidance_linear_ce :
    fFlockC4.apply envC4 sFlockC4 6 = sFlockC4 6 + (-2) ∧ ((-2 : ℝ) ≠ -(1 / 2)) := by
  constructor
  · rw [apply_flock_eq fFlockC4 envC4 sFlockC4 rfl rfl]
    simp only [applyFlock]
    have hxp : posOf sFlockC4 (envC4.boidCount - 1) = ⟨0, 5, 0⟩ := by
      simp only [envC4, posOf, sFlockC4, STATE_SIZE, STATE.P_X, STATE.P_Y, STATE.P_Z]
      norm_num
    have hxg : envC4.goal = ⟨9, 9, 9⟩ := rfl
    rw [hxp, hxg]
    have h := applyKernel_count fFlockC4.p STATE.F_X
      (flockA fFlockC4 ⟨0, 5, 0⟩ ⟨9, 9, 9⟩) sFlockC4 (by decide)
      (fun t i hof => flockA_congr fFlockC4 _ _ t sFlockC4 hof i) 0 0 (by decide)
      ⟨-2, 0, 0⟩ ?_
    · simpa [STATE_SIZE, STATE.F_X, Vec3.nth, fFlockC4] using h
    · intro i hi hqi
      simp only [fFlockC4, List.length_cons, List.length_nil] at hi
      interval_cases i
      · exact flockC4_accel
      · simp [fFlockC4] at hqi
  · norm_num

/-- C9 (amended): `draw` on a Spring pushes exactly 14 floats (two vertices
of position, colour and enabled-flag) at element offset `index * 14`
(`index * 7 * 2` in the source); the colour is pure white within the
`epsilon = 0.01` band of natural length, and otherwise depends only on the
relative deviation `|len - lr| / lr` — red-tinted `(1, δ, δ)` when
`δ = 1 - |len - lr|/lr ≤ 0.33` (large deviation), blue-tinted `(δ, δ, 1)`
otherwise — identically for compression and extension, not a
green-to-red / blue-to-red split by strain direction.  Every non-Spring
variant pushes nothing. -/
theorem draw_behavior (f : Force) (r0 g0 b0 : ℝ) (index : ℕ) (en : Bool) (p0 p1 : Vec3) :
    (f.type ≠ FORCE_TYPE.FORCE_SPRING → f.draw r0 g0 b0 index en p0 p1 = none) ∧
    (f.type = FORCE_TYPE.FORCE_SPRING →
      ∃ r g b e : ℝ,
        f.draw r0 g0 b0 index en p0 p1 =
          some ([p0.x, p0.y, p0.z, r, g, b, e, p1.x, p1.y, p1.z, r, g, b, e], index * 14) ∧
        ([p0.x, p0.y, p0.z, r, g, b, e, p1.x, p1.y, p1.z, r, g, b, e] : List ℝ).length = 14 ∧
        e = (if en && f.enabled then (1 : ℝ) else 0) ∧
        (|drawLen p0 p1 - f.lr| < 0.01 → (r, g, b) = (1, 1, 1)) ∧
        (¬ |drawLen p0 p1 - f.lr| < 0.01 →
          (1 - |drawLen p0 p1 - f.lr| / f.lr ≤ 0.33 →
            (r, g, b) = (1, 1 - |drawLen p0 p1 - f.lr| / f.lr,
              1 - |drawLen p0 p1 - f.lr| / f.lr)) ∧
          (¬ 1 - |drawLen p0 p1 - f.lr| / f.lr ≤ 0.33 →
            (r, g, b) = (1 - |drawLen p0 p1 - f.lr| / f.lr,
              1 - |drawLen p0 p1 - f.lr| / f.lr, 1))) ) := by
  constructor
  · intro hne
    simp only [Force.draw, if_neg hne]
  · intro hsp
    simp only [Force.draw, if_pos hsp]
    by_cases hw : |drawLen p0 p1 - f.lr| < 0.01
    · refine ⟨1, 1, 1, if en && f.enabled then (1 : ℝ) else 0, ?_, by norm_num, rfl,
        fun _ => rfl, fun hnw => absurd hw hnw⟩
      rw [if_pos hw]
      norm_num
      omega
    · by_cases hd : 1 - |drawLen p0 p1 - f.lr| / f.lr ≤ 0.33
      · refine ⟨1, 1 - |drawLen p0 p1 - f.lr| / f.lr, 1 - |drawLen p0 p1 - f.lr| / f.lr,
          if en && f.enabled then (1 : ℝ) else 0, ?_, by norm_num, rfl,
          fun hww => absurd hww hw, fun _ => ⟨fun _ => rfl, fun hnd => absurd hd hnd⟩⟩
        rw [if_neg hw, if_pos hd]
        norm_num
        omega
      · refine ⟨1 - |drawLen p0 p1 - f.lr| / f.lr, 1 - |drawLen p0 p1 - f.lr| / f.lr, 1,
          if en && f.enabled then (1 : ℝ) else 0, ?_, by norm_num, rfl,
          fun hww => absurd hww hw, fun _ => ⟨fun hdd => absurd hdd hd, fun _ => rfl⟩⟩
        rw [if_neg hw, if_neg hd]
        norm_num
        omega

/-- A unit-natural-length spring for the draw claims. -/
def fSpringC9 : Force := { type := FORCE_TYPE.FORCE_SPRING, p := [0, 1], k := 1, lr := 1 }

/-- Segment length of the compressed configuration `p0 = 0`, `p1 = (1/2,0,0)`. -/
lemma drawLen_compressed : drawLen ⟨0, 0, 0⟩ ⟨1/2, 0, 0⟩ = 1/2 := by
  simp only [drawLen]
  rw [show ((1/2 : ℝ) - 0) ^ 2 + ((0 : ℝ) - 0) ^ 2 + ((0 : ℝ) - 0) ^ 2 = (1/2) ^ 2 by norm_num,
    Real.sqrt_sq (by norm_num : (0 : ℝ) ≤ 1/2)]

/-- Counterexample to C9 as stated: a *compressed* spring (`len = 1/2 <
lr = 1`) pushes the colour `(1/2, 1/2, 1)` — the blue channel (1) strictly
exceeds the green channel (1/2), so compression colours do not lie on a
green-to-red gradient (whose blue component never dominates); the source
branches on the magnitude of the deviation only, never on its sign. -/
theorem draw_compression_color_ce :
    drawLen ⟨0, 0, 0⟩ ⟨1/2, 0, 0⟩ < fSpringC9.lr ∧
    fSpringC9.draw 0 0 0 0 true ⟨0, 0, 0⟩ ⟨1/2, 0, 0⟩ =
      some ([0, 0, 0, 1/2, 1/2, 1, 1, 1/2, 0, 0, 1/2, 1/2, 1, 1], 0) ∧
    ((1/2 : ℝ) < 1) := by
  refine ⟨by rw [drawLen_compressed]; norm_num [fSpringC9], ?_, by norm_num⟩
  simp only [Force.draw]
  rw [if_pos (show fSpringC9.type = FORCE_TYPE.FORCE_SPRING from rfl)]
  rw [drawLen_compressed]
  have habs : |(1/2 : ℝ) - fSpringC9.lr| = 1/2 := by
    rw [show (1/2 : ℝ) - fSpringC9.lr = -(1/2) by norm_num [fSpringC9]]
    rw [abs_neg, abs_of_nonneg (by norm_num : (0 : ℝ) ≤ 1/2)]
  rw [habs]
  rw [if_neg (by norm_num : ¬ (1/2 : ℝ) < 0.01)]
  rw [show fSpringC9.lr = 1 from rfl]
  rw [if_neg (by norm_num : ¬ (1 : ℝ) - 1/2 / 1 ≤ 0.33)]
  norm_num [fSpringC9]

/-- Witness for the amended C9: an extended spring (`len = 2`, deviation 1,
`δ = 0 ≤ 0.33`) pushes two vertices coloured `(1, 0, 0)` with enabled flag 1
at offset `2 * 14 = 28`. -/
theorem draw_behavior_witness :
    fSpringC9.draw 0 0 0 2 true ⟨0, 0, 0⟩ ⟨2, 0, 0⟩ =
      some ([0, 0, 0, 1, 0, 0, 1, 2, 0, 0, 1, 0, 0, 1], 28) := by
  have hlen : drawLen ⟨0, 0, 0⟩ ⟨2, 0, 0⟩ = 2 := by
    simp only [drawLen]
    rw [show ((2 : ℝ) - 0) ^ 2 + ((0 : ℝ) - 0) ^ 2 + ((0 : ℝ) - 0) ^ 2 = 2 ^ 2 by norm_num,
      Real.sqrt_sq (by norm_num : (0 : ℝ) ≤ 2)]
  obtain ⟨r, g, b, e, heq, hlen14, he, hwhite, helse⟩ :=
    (draw_behavior fSpringC9 0 0 0 2 true ⟨0, 0, 0⟩ ⟨2, 0, 0⟩).2 rfl
  rw [hlen] at helse
  have habs : |(2 : ℝ) - fSpringC9.lr| = 1 := by
    norm_num [fSpringC9]
  rw [habs] at helse
  have hrgb : (r, g, b) = ((1 : ℝ), (0 : ℝ), (0 : ℝ)) := by
    have h1 := (helse (by norm_num)).1 (by norm_num [fSpringC9])
    rw [show (1 : ℝ) - 1 / fSpringC9.lr = 0 by norm_num [fSpringC9]] at h1
    exact h1
  have hr : r = 1 := congrArg Prod.fst hrgb
  have hg : g = 0 := congrArg (fun p => p.2.1) hrgb
  have hb : b = 0 := congrArg (fun p => p.2.2) hrgb
  have heval : e = 1 := by
    rw [he]
    norm_num [fSpringC9]
  rw [hr, hg, hb, heval] at heq
  exact heq
